import Mathlib

/-!
Shallow embedding of `src/zim_to_dir.cpp` (zim_to_corpus): the producer/consumer
pipeline that filters articles of a .zim archive and writes them, in batches, to
numbered output files.  Machine integers (`size_t`, `uint32_t`) are modelled as
`Nat` with explicit `% 2^64` / `% 2^32` where C++ overflow or truncation matters.
-/

set_option autoImplicit false

/-! ## Data model

`ARTICLE_INDEX_TYPE` (a zim article index) is modelled as `Nat`; `IndexList` and
`FileData` mirror the typedefs at lines 118 and 123 of the source. -/

abbrev IndexList := List Nat

/-- Mirrors `typedef std::pair<size_t, IndexList> FileData;` (line 123): the
number of the output file and the indices of the articles it should contain. -/
abbrev FileData := Nat × IndexList

/-- One archive entry as seen through the zim iterator interface used by
`filter_articles`: `it.getIndex()`, `it->getTitle()`, `it->getNamespace()`,
`it->isRedirect()`, `it->isDeleted()`. -/
structure Entry where
  getIndex : Nat
  getTitle : String
  getNamespace : Char
  isRedirect : Bool
  isDeleted : Bool
deriving DecidableEq, Repr

/-! ## Pattern matching model

The exclusion-pattern matcher (`std::regex` / `std::regex_search`) is an
external collaborator of the program.  We model `regex_search` for the pattern
texts the program and its spec exercise concretely: the empty pattern (which,
as `std::regex("")`, matches every string) and self-literal patterns such as
`"(disambiguation)"`, whose ECMAScript meaning — a capture group around a
literal — coincides with searching for the literal text on the titles at
issue. Matching is therefore modelled as literal substring search. -/

/-- Bool test that the first character list occurs at the head of the second. -/
def startsWithChars : List Char → List Char → Bool
  | [], _ => true
  | _ :: _, [] => false
  | p :: ps, c :: cs => p = c && startsWithChars ps cs

/-- Bool test that the first character list occurs somewhere in the second. -/
def occursIn (pat : List Char) : List Char → Bool
  | [] => pat.isEmpty
  | c :: rest => startsWithChars pat (c :: rest) || occursIn pat rest

/-- Substring-search model of `std::regex_search(title, std::regex(pattern))`
for the literal-style patterns used by this program (see section comment). -/
def regex_search (pattern title : String) : Bool :=
  occursIn pattern.toList title.toList

/-! ## The filter thread (`filter_articles`, lines 237–278) -/

/-- The if/else-if cascade of lines 250–266: an entry is kept iff it is in
namespace `'A'`, is not a redirect, is not deleted, and its title does not
match the exclusion pattern — the checks applied in exactly this order. -/
def keepEntry (pattern : String → Bool) (e : Entry) : Bool :=
  if e.getNamespace ≠ 'A' then false
  else if e.isRedirect then false
  else if e.isDeleted then false
  else if pattern e.getTitle then false
  else true

/-- The loop of `filter_articles` (lines 241–272), with the state variables
`curr_num` (next file number, starts at 1) and `index_list` (the batch being
accumulated) made explicit.  The returned list is the sequence of `FileData`
jobs pushed to the channel, in push order: a full batch is pushed inside the
loop as `(curr_num++, index_list)` when `index_list.size() == documents`
(lines 262–265), and the non-empty remainder is pushed after the loop with the
current `curr_num` (lines 270–272). -/
def filterLoop (pattern : String → Bool) (documents : Nat) :
    List Entry → Nat → IndexList → List FileData
  | [], curr_num, index_list =>
      if index_list.isEmpty then [] else [(curr_num, index_list)]
  | e :: rest, curr_num, index_list =>
      if keepEntry pattern e then
        if (index_list ++ [e.getIndex]).length = documents then
          (curr_num, index_list ++ [e.getIndex])
            :: filterLoop pattern documents rest (curr_num + 1) []
        else
          filterLoop pattern documents rest curr_num (index_list ++ [e.getIndex])
      else
        filterLoop pattern documents rest curr_num index_list

/-- `filter_articles` (lines 237–278) as the list of batches it pushes, in
order: the loop starts with `curr_num = 1` and an empty `index_list`
(lines 241–243). -/
def filter_articles (pattern : String → Bool) (documents : Nat)
    (entries : List Entry) : List FileData :=
  filterLoop pattern documents entries 1 []

/-! ## The communication channel (`struct ZimData`, lines 131–209)

`queue`, `max_size` and `filter_done` are the shared state (lines 203–205).
The mutex makes each operation's critical section atomic, so operations are
modelled as atomic functions on this state.  Each operation additionally
reports how many `notify_one` calls it performs on each condition variable
(`data_in_queue`, `queue_not_full`), which is what a blocked thread needs in
order to wake. -/

structure ZimData where
  queue : List FileData
  max_size : Nat
  filter_done : Bool
deriving DecidableEq, Repr

/-- The constructor (line 132): `max_size(num_threads), filter_done(false)`,
with an empty queue. -/
def ZimData.init (num_threads : Nat) : ZimData :=
  { queue := [], max_size := num_threads, filter_done := false }

/-- `push_job` (lines 141–154) once its wait on `queue_not_full` has passed:
requires `queue.size() < max_size` (line 146, returns `none` when the caller
would still block), appends the job (line 149) and performs one `notify_one`
on `data_in_queue` (line 153).  Result: new state, number of `notify_one`
calls on `data_in_queue`, number on `queue_not_full`. -/
def ZimData.push_job (s : ZimData) (file_data : FileData) :
    Option (ZimData × Nat × Nat) :=
  if s.queue.length < s.max_size then
    some ({ s with queue := s.queue ++ [file_data] }, 1, 0)
  else none

/-- The body of `pop_job` (lines 168–193) after the wait on `data_in_queue`
(line 166) has returned: if the queue is non-empty, pop the front and
`notify_one` on `queue_not_full` (lines 169–176); otherwise, if
`filter_done`, `notify_one` on `data_in_queue` and return the END indication
`(0, [])` (lines 177–189); otherwise the `assert(0)` branch (lines 190–192),
modelled as `none`.  Result: returned `FileData`, new state, `notify_one`
counts on `data_in_queue` and `queue_not_full`. -/
def ZimData.pop_job (s : ZimData) : Option (FileData × ZimData × Nat × Nat) :=
  match s.queue with
  | fd :: rest => some (fd, { s with queue := rest }, 0, 1)
  | [] =>
      if s.filter_done then some ((0, []), s, 1, 0)
      else none

/-- `filtering_finished` (lines 197–200): takes the mutex and sets
`filter_done = true`.  The function body contains no `notify_one` call on
either condition variable, hence the notification counts are `(0, 0)`. -/
def ZimData.filtering_finished (s : ZimData) : ZimData × Nat × Nat :=
  ({ s with filter_done := true }, 0, 0)

/-! ### Channel histories

A labelled transition system over `ZimData`: one label per completed critical
section of `push_job` / `pop_job` / `filtering_finished`.  Guards are exactly
the branch conditions of the source (a blocked operation simply has not taken
its step yet). -/

inductive ChanEv where
  | push (fd : FileData)
  | pop (fd : FileData)
  | popEnd
  | close
deriving DecidableEq, Repr

inductive ChanStep : ZimData → ChanEv → ZimData → Prop where
  | push (s : ZimData) (fd : FileData) :
      s.queue.length < s.max_size →
      ChanStep s (.push fd) { s with queue := s.queue ++ [fd] }
  | pop (s : ZimData) (fd : FileData) (rest : List FileData) :
      s.queue = fd :: rest →
      ChanStep s (.pop fd) { s with queue := rest }
  | popEnd (s : ZimData) :
      s.queue = [] → s.filter_done = true →
      ChanStep s .popEnd s
  | close (s : ZimData) :
      ChanStep s .close { s with filter_done := true }

inductive ChanExec : ZimData → List ChanEv → ZimData → Prop where
  | nil (s : ZimData) : ChanExec s [] s
  | cons {s s' s'' : ZimData} {e : ChanEv} {tr : List ChanEv} :
      ChanStep s e s' → ChanExec s' tr s'' → ChanExec s (e :: tr) s''

/-- The batches pushed in a channel history, in order. -/
def pushedBatches : List ChanEv → List FileData
  | [] => []
  | ChanEv.push fd :: tr => fd :: pushedBatches tr
  | _ :: tr => pushedBatches tr

/-- The batches handed to consumers in a channel history, in order. -/
def poppedBatches : List ChanEv → List FileData
  | [] => []
  | ChanEv.pop fd :: tr => fd :: poppedBatches tr
  | _ :: tr => poppedBatches tr

/-! ## The writer threads (`write_articles_to_files`, lines 297–322)

Article content (`article.getData()`) is modelled as a list of bytes
(naturals below 256 in intent; the byte arithmetic only relies on `% 256`). -/

/-- The four bytes written for `uint32_t size = htonl(static_cast<uint32_t>(n))`
(line 317) followed by `out.write(reinterpret_cast<char*>(&size), 4)`
(line 318): the cast truncates `n` to 32 bits, and `htonl` puts the bytes in
big-endian (network) order, most significant first. -/
def htonl_bytes (n : Nat) : List Nat :=
  [n % 2^32 / 2^24 % 256, n % 2^32 / 2^16 % 256, n % 2^32 / 2^8 % 256, n % 2^32 % 256]

/-- Big-endian decoding of a 4-byte list (how a reader of the output file
interprets a record's length prefix). -/
def fromBigEndian4 : List Nat → Nat
  | [a, b, c, d] => ((a * 256 + b) * 256 + c) * 256 + d
  | _ => 0

/-- The bytes appended to the output stream for one article (lines 316–319):
the 4-byte big-endian length prefix followed by the raw content bytes. -/
def writeRecord (blob : List Nat) : List Nat :=
  htonl_bytes blob.length ++ blob

/-- The article loop of lines 313–320: for each index of the batch, in order,
fetch the content (`f.getArticle(index).getData()`, modelled by `getData`) and
append its record to the output stream. -/
def writeBatch (getData : Nat → List Nat) (indices : IndexList) : List Nat :=
  indices.foldl (fun out index => out ++ writeRecord (getData index)) []

/-- An upper bound on `std::string::max_size()`: the fill constructor
`std::string(count, ch)` throws `std::length_error` when `count` exceeds it.
Its exact value is irrelevant here; what matters is that it is far below
`2^64 - 20`, the smallest value a wrapped `size_t` subtraction can produce at
line 309. -/
def string_max_size : Nat := 2^62 - 1

/-- The output file name built at lines 308–309:
`num = std::to_string(fd.first)` and then
`num = std::string(zeroes - num.length(), '0') + num + ".htmls.gz"`.
Both operands of the subtraction are `size_t`, so it wraps modulo `2^64`;
`none` models the `std::length_error` thrown by the `std::string` fill
constructor when the wrapped count exceeds `max_size()`. -/
def output_file_name (zeroes : Nat) (file_num : Nat) : Option String :=
  let num := toString file_num
  let pad := (zeroes + 2^64 - num.length) % 2^64
  if pad ≤ string_max_size then
    some (String.mk (List.replicate pad '0') ++ num ++ ".htmls.gz")
  else none

/-- The per-batch effect of the writer loop (lines 301–321), applied to the
list of batches one writer dequeues before receiving END: for each batch, the
artifact it creates — its name (lines 308–309) and its bytes (lines 311–320). -/
def write_articles_to_files (getData : Nat → List Nat) (zeroes : Nat)
    (batches : List FileData) : List (Option String × List Nat) :=
  batches.map fun fd => (output_file_name zeroes fd.1, writeBatch getData fd.2)

/-! ## Argument handling and pattern selection (lines 36–38, 93–99, 333–345) -/

/-- The global language → disambiguation-pattern table (lines 36–38). -/
def disambig : List (String × String) :=
  [("hu", "\\(egyértelműsítő lap\\)$"), ("en", "\\(disambiguation\\)$")]

structure LanguageCheck where
  warned : Bool
  exited : Bool
deriving DecidableEq, Repr

/-- The language validation fragment of `ArgumentParser::parse`
(lines 93–99): when the custom pattern is empty and the language is not a key
of `disambig`, a warning is printed to stdout — and nothing else happens: in
contrast to the other branches of `parse` (help, missing -i or -o), this branch
contains no `exit` call, so parsing continues. -/
def parse_language_check (pattern language : String) : LanguageCheck :=
  if pattern.length = 0 then
    if (disambig.lookup language).isNone then
      { warned := true, exited := false }
    else
      { warned := false, exited := false }
  else
    { warned := false, exited := false }

/-- The pattern-text selection of `create_pattern_regex` (lines 333–345):
the custom pattern if non-empty, otherwise `disambig[language]` — where
`std::map::operator[]` yields a default-constructed (empty) string for a
language that is not in the table. -/
def create_pattern_regex (custom_pattern language : String) : String :=
  if custom_pattern.length > 0 then custom_pattern
  else (disambig.lookup language).getD ""

/-! ## Whole-run scheduler model (`main`, lines 348–385)

One producer thread running `filter_articles` and a pool of writer threads
running `write_articles_to_files`, communicating through a `ZimData` channel.
Condition-variable wakeups are modelled by counters of pending `notify_one`
signals (`dataTokens` for `data_in_queue`, `notFullTokens` for
`queue_not_full`); a thread blocked in a `wait` can only resume by consuming
such a token, as `std::condition_variable` guarantees no wakeup without a
notification (spurious wakeups are permitted but not guaranteed by the C++
standard, so correctness may not rely on them).  The producer is reduced to
its channel interactions: the batches it still has to push, then one
`filtering_finished` call. -/

/-- Status of a writer thread with respect to the channel: `running` (will
call `pop_job` next), `blocked` (asleep inside the wait at line 166), or
`finished` (received END and left its loop, lines 303–306). -/
inductive WStatus where
  | running
  | blocked
  | finished
deriving DecidableEq, Repr

structure Sys where
  chan : ZimData
  dataTokens : Nat
  notFullTokens : Nat
  pending : List FileData
  workers : List WStatus
deriving DecidableEq, Repr

inductive SysEv where
  | workerPop (i : Nat)
  | workerWake (i : Nat)
  | producerPush
  | producerClose
deriving DecidableEq, Repr

/-- Worker `i` evaluates the `pop_job` branches under the lock (the predicate
of the wait at line 166 together with the body, lines 168–193): with data it
pops the front and signals `queue_not_full`; with an empty queue and
`filter_done` it signals `data_in_queue` and finishes (END); with an empty
queue and the filter still running it goes to sleep. -/
def checkPop (s : Sys) (i : Nat) : Sys :=
  match s.chan.queue with
  | _ :: rest =>
      { s with chan := { s.chan with queue := rest },
               notFullTokens := s.notFullTokens + 1,
               workers := s.workers.set i WStatus.running }
  | [] =>
      if s.chan.filter_done then
        { s with dataTokens := s.dataTokens + 1,
                 workers := s.workers.set i WStatus.finished }
      else
        { s with workers := s.workers.set i WStatus.blocked }

/-- One scheduler step; `none` when the event is not enabled.
`workerWake` consumes one pending `data_in_queue` notification and re-checks
the wait predicate (the woken thread re-evaluates it and, if it is still
false, keeps waiting).  `producerPush` requires room in the queue (otherwise
the producer itself is blocked, line 146) and performs the `notify_one` of
line 153.  `producerClose` is `filtering_finished` (lines 197–200): it sets
the flag and — as in the source — adds no notification token. -/
def sysApply (s : Sys) : SysEv → Option Sys
  | SysEv.workerPop i =>
      if s.workers[i]? = some WStatus.running then some (checkPop s i) else none
  | SysEv.workerWake i =>
      if s.workers[i]? = some WStatus.blocked ∧ 0 < s.dataTokens then
        some (checkPop { s with dataTokens := s.dataTokens - 1 } i)
      else none
  | SysEv.producerPush =>
      match s.pending with
      | fd :: rest =>
          if s.chan.queue.length < s.chan.max_size then
            some { s with chan := { s.chan with queue := s.chan.queue ++ [fd] },
                          dataTokens := s.dataTokens + 1,
                          pending := rest }
          else none
      | [] => none
  | SysEv.producerClose =>
      if s.pending = [] ∧ s.chan.filter_done = false then
        some { s with chan := { s.chan with filter_done := true } }
      else none

/-- Runs a list of scheduler events in order. -/
def sysRun (s : Sys) : List SysEv → Option Sys
  | [] => some s
  | e :: evs => (sysApply s e).bind (fun s' => sysRun s' evs)

/-! ## Concrete inputs used by the spec's examples -/

/-- An archive of `n` kept entries (namespace `'A'`, no redirect, not deleted,
title matching no non-trivial pattern), indexed `0, …, n-1`. -/
def uniformEntries (n : Nat) : List Entry :=
  (List.range n).map fun i =>
    { getIndex := i, getTitle := "", getNamespace := 'A',
      isRedirect := false, isDeleted := false }

/-- The five-entry archive of the spec's filtering example:
`[A(ns=A), B(ns=A,redirect), C(ns=A,title="X (disambiguation)"), D(ns=A),
E(ns=B)]`, with ids 1–5. -/
def exampleEntries : List Entry :=
  [ { getIndex := 1, getTitle := "A", getNamespace := 'A',
      isRedirect := false, isDeleted := false },
    { getIndex := 2, getTitle := "B", getNamespace := 'A',
      isRedirect := true, isDeleted := false },
    { getIndex := 3, getTitle := "X (disambiguation)", getNamespace := 'A',
      isRedirect := false, isDeleted := false },
    { getIndex := 4, getTitle := "D", getNamespace := 'A',
      isRedirect := false, isDeleted := false },
    { getIndex := 5, getTitle := "E", getNamespace := 'B',
      isRedirect := false, isDeleted := false } ]

/-! ## Lemmas about the filter loop -/

theorem mem_dropLast_cons {α : Type} {b x : α} {xs : List α}
    (h : b ∈ (x :: xs).dropLast) : b = x ∨ b ∈ xs.dropLast := by
  cases xs with
  | nil => simp at h
  | cons y ys =>
      rw [List.dropLast_cons₂] at h
      simpa using h

theorem filterLoop_map_fst (m : String → Bool) (d : Nat) :
    ∀ (es : List Entry) (c : Nat) (acc : IndexList),
      (filterLoop m d es c acc).map Prod.fst
        = List.range' c (filterLoop m d es c acc).length := by
  intro es
  induction es with
  | nil =>
      intro c acc
      by_cases h : acc.isEmpty <;> simp [filterLoop, h]
  | cons e rest ih =>
      intro c acc
      by_cases hk : keepEntry m e
      · by_cases hl : (acc ++ [e.getIndex]).length = d
        · simp only [filterLoop, hk, if_true, hl, List.map_cons, List.length_cons]
          rw [ih, List.range'_succ]
        · simp only [filterLoop, hk, if_true, hl, if_false]
          exact ih _ _
      · simp only [filterLoop, hk, if_false]
        exact ih _ _

theorem filterLoop_sizes (m : String → Bool) (d : Nat) :
    ∀ (es : List Entry) (c : Nat) (acc : IndexList),
      ∀ b ∈ (filterLoop m d es c acc).dropLast, b.2.length = d := by
  intro es
  induction es with
  | nil =>
      intro c acc b hb
      by_cases h : acc.isEmpty <;> simp [filterLoop, h] at hb
  | cons e rest ih =>
      intro c acc b hb
      by_cases hk : keepEntry m e
      · by_cases hl : (acc ++ [e.getIndex]).length = d
        · simp only [filterLoop, hk, if_true, hl] at hb
          rcases mem_dropLast_cons hb with hb | hb
          · rw [hb]; exact hl
          · exact ih _ _ b hb
        · simp only [filterLoop, hk, if_true, hl, if_false] at hb
          exact ih _ _ b hb
      · simp only [filterLoop, hk, if_false] at hb
        exact ih _ _ b hb

theorem filterLoop_ne_nil (m : String → Bool) (d : Nat) :
    ∀ (es : List Entry) (c : Nat) (acc : IndexList),
      ∀ b ∈ filterLoop m d es c acc, b.2 ≠ [] := by
  intro es
  induction es with
  | nil =>
      intro c acc b hb
      by_cases h : acc.isEmpty
      · simp [filterLoop, h] at hb
      · simp [filterLoop, h] at hb
        subst hb
        simpa using h
  | cons e rest ih =>
      intro c acc b hb
      by_cases hk : keepEntry m e
      · by_cases hl : (acc ++ [e.getIndex]).length = d
        · simp only [filterLoop, hk, if_true, hl] at hb
          rcases List.mem_cons.mp hb with hb | hb
          · rw [hb]; simp
          · exact ih _ _ b hb
        · simp only [filterLoop, hk, if_true, hl, if_false] at hb
          exact ih _ _ b hb
      · simp only [filterLoop, hk, if_false] at hb
        exact ih _ _ b hb

/-! ## Claim theorems: the Producer -/

set_option maxRecDepth 1000000 in
set_option maxHeartbeats 4000000 in
/-- C3: for every input archive and batch size, the sequence numbers of the
batches pushed by the Producer form the contiguous range `1..K` with no gaps
or repeats, every batch except possibly the last contains exactly the
configured batch size of kept ids, and the last batch is non-empty (indeed
every batch is non-empty); with 1000 kept entries and batch size 300 the
batches have sizes `300, 300, 300, 100` and numbers `1..4`. -/
theorem C3_batch_numbering (m : String → Bool) (d : Nat) (entries : List Entry) :
    (filter_articles m d entries).map Prod.fst
        = List.range' 1 (filter_articles m d entries).length ∧
    (∀ b ∈ (filter_articles m d entries).dropLast, b.2.length = d) ∧
    (∀ b ∈ filter_articles m d entries, b.2 ≠ []) ∧
    (filter_articles (fun _ => false) 300 (uniformEntries 1000)).map
        (fun b => (b.1, b.2.length))
      = [(1, 300), (2, 300), (3, 300), (4, 100)] :=
  ⟨filterLoop_map_fst m d entries 1 [], filterLoop_sizes m d entries 1 [],
   filterLoop_ne_nil m d entries 1 [], rfl⟩

/-- C4: an entry is kept iff it is in the content namespace `'A'`, is not a
redirect, is not deleted, and its title does not match the exclusion pattern
(the four checks being the if/else-if cascade of lines 250–266, in that
order); on the archive `[A(ns=A), B(ns=A,redirect),
C(ns=A,title="X (disambiguation)"), D(ns=A), E(ns=B)]` with pattern
`"(disambiguation)"` and batch size 10, exactly one batch is produced, with
sequence number 1, containing the ids of A and D only. -/
theorem C4_keep_rule :
    (∀ (m : String → Bool) (e : Entry),
        keepEntry m e = true ↔
          e.getNamespace = 'A' ∧ e.isRedirect = false ∧ e.isDeleted = false ∧
            m e.getTitle = false) ∧
    filter_articles (regex_search "(disambiguation)") 10 exampleEntries
      = [(1, [1, 4])] := by
  constructor
  · intro m e
    unfold keepEntry
    split_ifs <;> simp_all
  · decide

/-! ## Lemmas about the channel -/

theorem ChanStep.max_size_eq {s s' : ZimData} {e : ChanEv}
    (h : ChanStep s e s') : s'.max_size = s.max_size := by
  cases h <;> rfl

theorem ChanStep.queue_le {s s' : ZimData} {e : ChanEv} (h : ChanStep s e s')
    (hle : s.queue.length ≤ s.max_size) :
    s'.queue.length ≤ s'.max_size := by
  cases h with
  | push fd hlt => simp only [List.length_append, List.length_singleton]; omega
  | pop fd rest hq => simp only [hq, List.length_cons] at hle; simp; omega
  | popEnd hq hf => exact hle
  | close => exact hle

theorem ChanExec.inv {s s' : ZimData} {tr : List ChanEv} (h : ChanExec s tr s') :
    s.queue.length ≤ s.max_size →
      s'.queue.length ≤ s'.max_size ∧ s'.max_size = s.max_size := by
  induction h with
  | nil s => exact fun hle => ⟨hle, rfl⟩
  | cons hstep hexec ih =>
      intro hle
      rcases ih (hstep.queue_le hle) with ⟨h1, h2⟩
      exact ⟨h1, h2.trans hstep.max_size_eq⟩

theorem ChanExec.batches {s s' : ZimData} {tr : List ChanEv}
    (h : ChanExec s tr s') :
    poppedBatches tr ++ s'.queue = s.queue ++ pushedBatches tr := by
  induction h with
  | nil s => simp [pushedBatches, poppedBatches]
  | cons hstep hexec ih =>
      cases hstep with
      | push fd hlt =>
          simp only [pushedBatches, poppedBatches] at ih ⊢
          rw [ih]
          simp
      | pop fd rest hq =>
          simp only [pushedBatches, poppedBatches] at ih ⊢
          rw [hq]
          simpa using ih
      | popEnd hq hf =>
          simpa only [pushedBatches, poppedBatches] using ih
      | close =>
          simpa only [pushedBatches, poppedBatches] using ih

/-! ## Claim theorems: the channel -/

/-- C5: along every history of channel operations from a freshly constructed
channel of capacity `n`, the queue length never exceeds `n`; moreover a push
step can only fire from a state where the queue length is strictly below
`max_size`, and then appends the batch at the tail. -/
theorem C5_capacity (n : Nat) (tr : List ChanEv) (s : ZimData)
    (h : ChanExec (ZimData.init n) tr s) :
    s.queue.length ≤ n ∧
    (∀ (s₁ s₂ : ZimData) (fd : FileData), ChanStep s₁ (ChanEv.push fd) s₂ →
      s₁.queue.length < s₁.max_size ∧ s₂.queue = s₁.queue ++ [fd]) := by
  constructor
  · rcases h.inv (by simp [ZimData.init]) with ⟨h1, h2⟩
    simp only [ZimData.init] at h2
    omega
  · intro s₁ s₂ fd hstep
    cases hstep with
    | push _ hlt => exact ⟨hlt, rfl⟩

/-- Witness for C5: the one-push history on a capacity-2 channel. -/
theorem C5_capacity_witness :
    ({ queue := [(1, [3])], max_size := 2, filter_done := false } :
      ZimData).queue.length ≤ 2 :=
  (C5_capacity 2 [ChanEv.push (1, [3])]
    { queue := [(1, [3])], max_size := 2, filter_done := false }
    (ChanExec.cons (ChanStep.push (ZimData.init 2) (1, [3]) (by decide))
      (ChanExec.nil _))).1

/-- C6: along every history from a freshly constructed channel, the batches
handed out to consumers are exactly the batches pushed, in push order, minus
the tail still sitting in the queue: delivery is FIFO, nothing is lost and
nothing is delivered twice; once the queue has drained, the popped sequence
equals the pushed sequence exactly. -/
theorem C6_fifo (n : Nat) (tr : List ChanEv) (s : ZimData)
    (h : ChanExec (ZimData.init n) tr s) :
    poppedBatches tr ++ s.queue = pushedBatches tr ∧
    (s.queue = [] → poppedBatches tr = pushedBatches tr) := by
  have hb := h.batches
  simp only [ZimData.init, List.nil_append] at hb
  refine ⟨hb, fun hq => ?_⟩
  simpa [hq] using hb

/-- Witness for C6: push one batch, pop it; the popped and pushed sequences
coincide. -/
theorem C6_fifo_witness :
    poppedBatches [ChanEv.push (1, [2]), ChanEv.pop (1, [2])]
      = pushedBatches [ChanEv.push (1, [2]), ChanEv.pop (1, [2])] :=
  (C6_fifo 1 [ChanEv.push (1, [2]), ChanEv.pop (1, [2])]
    { queue := [], max_size := 1, filter_done := false }
    (ChanExec.cons (ChanStep.push (ZimData.init 1) (1, [2]) (by decide))
      (ChanExec.cons
        (ChanStep.pop { queue := [(1, [2])], max_size := 1, filter_done := false }
          (1, [2]) [] rfl)
        (ChanExec.nil _)))).2 rfl

/-- C9: whenever the wait predicate of `pop_job` (line 166: queue non-empty,
or the filter is done) holds — which `condition_variable::wait(lock, pred)`
guarantees at every return — the body of `pop_job` takes the batch branch or
the END branch, never the `assert(0)` branch (modelled as `none`). -/
theorem C9_no_assert (s : ZimData)
    (h : s.queue.isEmpty = false ∨ s.filter_done = true) :
    ZimData.pop_job s ≠ none := by
  cases hq : s.queue with
  | cons fd rest => simp [ZimData.pop_job, hq]
  | nil =>
      rcases h with h | h
      · rw [hq] at h
        simp at h
      · simp [ZimData.pop_job, hq, h]

/-- Witness for C9: an empty, closed channel satisfies the wait predicate and
`pop_job` answers (with END) rather than asserting. -/
theorem C9_no_assert_witness :
    ZimData.pop_job { queue := [], max_size := 3, filter_done := true } ≠ none :=
  C9_no_assert { queue := [], max_size := 3, filter_done := true } (Or.inr rfl)

/-! ## Lemmas about the writer and the pattern machinery -/

theorem htonl_bytes_length (n : Nat) : (htonl_bytes n).length = 4 := rfl

theorem writeBatch_foldl (getData : Nat → List Nat) :
    ∀ (indices : IndexList) (acc : List Nat),
      indices.foldl (fun out index => out ++ writeRecord (getData index)) acc
        = acc ++ (indices.map fun i => writeRecord (getData i)).flatten := by
  intro indices
  induction indices with
  | nil => intro acc; simp
  | cons i rest ih =>
      intro acc
      simp only [List.foldl_cons, List.map_cons, List.flatten_cons, ih,
        List.append_assoc]

theorem occursIn_nil (l : List Char) : occursIn [] l = true := by
  induction l with
  | nil => rfl
  | cons c rest ih => simp [occursIn, startsWithChars, ih]

theorem regex_search_empty (t : String) : regex_search "" t = true := by
  have h : ("" : String).toList = [] := rfl
  rw [regex_search, h, occursIn_nil]

theorem keepEntry_matcher_true (m : String → Bool) (hm : ∀ t, m t = true)
    (e : Entry) : keepEntry m e = false := by
  unfold keepEntry
  split_ifs <;> simp_all

theorem filterLoop_all_dropped (m : String → Bool) (d : Nat)
    (hm : ∀ e : Entry, keepEntry m e = false) :
    ∀ (es : List Entry) (c : Nat), filterLoop m d es c [] = [] := by
  intro es
  induction es with
  | nil => intro c; rfl
  | cons e rest ih => intro c; simp [filterLoop, hm e, ih]

/-! ## Claim theorems: shutdown, writer output, naming, language handling -/

/-- C1 (code bug): the claim says the close operation sets the closed flag
and wakes one waiting consumer.  `filtering_finished` does set the flag, but
its notification counts are `(0, 0)`: it contains no `notify_one` call at
all; at the failing state — empty queue, one consumer asleep in the wait of
`pop_job` — applying the producer's close leaves the consumer blocked and the
pending-notification count at zero, so the blocked consumer is not woken. -/
theorem C1_close_does_not_wake :
    ZimData.filtering_finished { queue := [], max_size := 1, filter_done := false }
      = ({ queue := [], max_size := 1, filter_done := true }, 0, 0) ∧
    sysApply { chan := { queue := [], max_size := 1, filter_done := false },
               dataTokens := 0, notFullTokens := 0, pending := [],
               workers := [WStatus.blocked] } SysEv.producerClose
      = some { chan := { queue := [], max_size := 1, filter_done := true },
               dataTokens := 0, notFullTokens := 0, pending := [],
               workers := [WStatus.blocked] } :=
  ⟨rfl, by decide⟩

/-- C2 (code bug): a run with capacity 1, one consumer and a non-empty input
whose entries are all dropped (`K = 0` batches) can deadlock: if the consumer
calls `pop_job` before the producer closes, it goes to sleep on
`data_in_queue`; the producer's `filtering_finished` then sets the flag
without notifying, reaching a state where the consumer is still blocked and
no event of the system is enabled — the consumer never receives END and the
threads never join. -/
theorem C2_shutdown_deadlock :
    sysRun { chan := ZimData.init 1, dataTokens := 0, notFullTokens := 0,
             pending := [], workers := [WStatus.running] }
        [SysEv.workerPop 0, SysEv.producerClose]
      = some { chan := { queue := [], max_size := 1, filter_done := true },
               dataTokens := 0, notFullTokens := 0, pending := [],
               workers := [WStatus.blocked] } ∧
    ∀ e, sysApply { chan := { queue := [], max_size := 1, filter_done := true },
                    dataTokens := 0, notFullTokens := 0, pending := [],
                    workers := [WStatus.blocked] } e = none := by
  refine ⟨by decide, fun e => ?_⟩
  cases e with
  | workerPop i =>
      cases i with
      | zero => decide
      | succ j => simp [sysApply]
  | workerWake i =>
      cases i with
      | zero => decide
      | succ j => simp [sysApply]
  | producerPush => decide
  | producerClose => decide

/-- C7 counterexample: for a content of `2^32` bytes, the record's 4-byte
big-endian prefix decodes to `0`, not to the content's byte length — the
claim's "for content of any size" fails at this input. -/
theorem C7_prefix_truncation_counterexample :
    fromBigEndian4 ((writeRecord (List.replicate (2^32) 0)).take 4)
      ≠ (List.replicate (2^32) (0 : Nat)).length := by
  have hlen : (List.replicate (2^32) (0 : Nat)).length = 2^32 :=
    List.length_replicate _ _
  have hpref : htonl_bytes (List.replicate (2^32) (0 : Nat)).length
      = [0, 0, 0, 0] := by
    rw [hlen]
    norm_num [htonl_bytes]
  rw [writeRecord, hpref, hlen,
    List.take_append_of_le_length (by norm_num)]
  norm_num [fromBigEndian4]

/-- C7 (amended): the artifact bytes for a batch are the per-index records
concatenated in the batch's id order, and each record's 4-byte big-endian
length prefix equals the exact byte length of the content that follows it
whenever the content is smaller than `2^32` bytes (the `uint32_t` cast at
line 317 truncates longer contents modulo `2^32`). -/
theorem C7_record_format (getData : Nat → List Nat) (indices : IndexList) :
    writeBatch getData indices
        = (indices.map fun i => writeRecord (getData i)).flatten ∧
    ∀ blob : List Nat, blob.length < 2^32 →
      (writeRecord blob).take 4 = htonl_bytes blob.length ∧
      fromBigEndian4 (htonl_bytes blob.length) = blob.length ∧
      (writeRecord blob).drop 4 = blob := by
  constructor
  · rw [writeBatch, writeBatch_foldl]
    rfl
  · intro blob hlt
    refine ⟨?_, ?_, ?_⟩
    · rw [writeRecord, List.take_append_of_le_length (by rw [htonl_bytes_length])]
      exact List.take_of_length_le (by rw [htonl_bytes_length])
    · rw [htonl_bytes, fromBigEndian4]
      rw [Nat.mod_eq_of_lt hlt]
      omega
    · rw [writeRecord]
      have h4 : (4 : Nat) = (htonl_bytes blob.length).length :=
        (htonl_bytes_length _).symm
      rw [h4, List.drop_left]

/-- Witness for C7 at a two-byte content. -/
theorem C7_record_format_witness :
    (writeRecord [7, 8]).take 4 = htonl_bytes 2 ∧
    fromBigEndian4 (htonl_bytes 2) = 2 ∧
    (writeRecord [7, 8]).drop 4 = [7, 8] :=
  (C7_record_format (fun _ => []) []).2 [7, 8] (by decide)

/-- C8 (code bug): the artifact name is the sequence number zero-padded to
the configured width when it fits (e.g. `123` with width 4 yields
`"0123.htmls.gz"`), but for a sequence number whose decimal representation
has more digits than the width (e.g. `10000` with width 4) the `size_t`
subtraction `zeroes - num.length()` at line 309 wraps to `2^64 - 1` and the
`std::string` fill constructor throws `std::length_error` (`none`): the
naming step fails, contradicting the claim that it never fails. -/
theorem C8_naming_overflow :
    output_file_name 4 123 = some "0123.htmls.gz" ∧
    output_file_name 4 10000 = none := by
  constructor
  · rfl
  · rfl

/-- C10: for a language code absent from the built-in table and no custom
pattern, argument parsing prints a warning but does not exit; the selected
default pattern is the empty string (`std::map::operator[]` on a missing
key), which matches every title; consequently every entry is dropped, the
producer pushes zero batches, and writers — which dequeue nothing — produce
zero artifacts. -/
theorem C10_unknown_language (lang : String)
    (h : disambig.lookup lang = none) (docs zeroes : Nat)
    (entries : List Entry) (getData : Nat → List Nat) :
    parse_language_check "" lang = { warned := true, exited := false } ∧
    create_pattern_regex "" lang = "" ∧
    (∀ t, regex_search "" t = true) ∧
    filter_articles (regex_search "") docs entries = [] ∧
    write_articles_to_files getData zeroes [] = [] := by
  refine ⟨?_, ?_, regex_search_empty, ?_, rfl⟩
  · simp [parse_language_check, h]
  · simp [create_pattern_regex, h]
  · exact filterLoop_all_dropped _ docs
      (fun e => keepEntry_matcher_true _ regex_search_empty e) entries 1

/-- Witness for C10 at the unsupported language "de". -/
theorem C10_unknown_language_witness :
    parse_language_check "" "de" = { warned := true, exited := false } ∧
    filter_articles (regex_search "") 2500 exampleEntries = [] :=
  ⟨(C10_unknown_language "de" (by decide) 2500 4 exampleEntries
      (fun _ => [])).1,
   (C10_unknown_language "de" (by decide) 2500 4 exampleEntries
      (fun _ => [])).2.2.2.1⟩
